import Mathlib

/-!
# Verification of `pyrees.py` (Michael Rees style-scoring algorithm)

Shallow embedding of `src/pyrees.py` in Lean 4.

Modelling conventions:
* Python floats are modelled as exact rationals (ℚ); the program only ever
  divides by quantities its own guards make nonzero, so no float pathology
  is material to the claims checked here.
* Python strings are Lean `String`s; per-character work is done on
  `String.data : List Char` (Python `len` = code-point count = list length).
* The external standard-library collaborators `tokenize.tokenize` and
  `ast.parse` are not code of this repository; their *results* are passed to
  the embedded `analyze_style` as oracle arguments:
  `tokRes : Option (List Tok)` (`none` = tokenization raised, mirroring the
  `except` branch that sets `tokens = []`) and `astRes : Option PyTree`
  (`none` = `ast.parse` raised, mirroring `num_funcs = 0`).
  Everything the repository's own code does with those results is embedded
  faithfully, line by line.
-/

/-- Kind of a lexical token, as the source distinguishes them:
`tokenize.COMMENT`, `tokenize.NAME`, and everything else. -/
inductive TokKind where
  | comment
  | name
  | other
deriving DecidableEq, Repr

/-- A lexical token as consumed by `analyze_style`: its kind, its literal
text (`tok.string`), and its starting line number (`tok.start[0]`). -/
structure Tok where
  kind : TokKind
  str : String
  line : ℕ
deriving DecidableEq, Repr

/-- Kind of a node of the parsed syntax tree, as the source distinguishes
them: `ast.FunctionDef`, `ast.AsyncFunctionDef`, `ast.Lambda`, and every
other node class. -/
inductive NodeKind where
  | functionDef
  | asyncFunctionDef
  | lambdaExpr
  | otherNode
deriving DecidableEq, Repr

/-- A parsed syntax tree: every node has a kind and a list of children
(`ast.walk` reaches exactly the node itself and all descendants). -/
inductive PyTree where
  | node (kind : NodeKind) (children : List PyTree)
deriving Repr

mutual

/-- The kinds of all nodes reached by `ast.walk` from a tree: the root and
every descendant, in depth-first order (order is irrelevant to the source,
which only filters and counts). -/
def walk : PyTree → List NodeKind
  | .node k cs => k :: walkChildren cs

/-- `walk` mapped over a list of trees, concatenated. -/
def walkChildren : List PyTree → List NodeKind
  | [] => []
  | t :: ts => walk t ++ walkChildren ts

end

/-- `.node` kinds counted by the list comprehension at `pyrees.py:103`:
`isinstance(node, (ast.FunctionDef, ast.AsyncFunctionDef))`. -/
def isFuncDefKind (k : NodeKind) : Bool :=
  k == NodeKind.functionDef || k == NodeKind.asyncFunctionDef

/-- `len([node for node in ast.walk(tree) if isinstance(node,
(ast.FunctionDef, ast.AsyncFunctionDef))])` — `pyrees.py:103-104`. -/
def countFuncDefs (t : PyTree) : ℕ :=
  ((walk t).filter isFuncDefKind).length

/-- Conversion-curve parameters: the 5-tuple
`(max_mark, lo, lotol, hitol, hi)` of `pyrees.py:21`. -/
structure CurveParams where
  max_mark : ℚ
  lo : ℚ
  lotol : ℚ
  hitol : ℚ
  hi : ℚ
deriving DecidableEq, Repr

/-- The CurveParams invariant stated by the spec (§3): `lo ≤ lotol ≤ hitol ≤ hi`
and `max_mark ≥ 0`. -/
def validParams (p : CurveParams) : Prop :=
  p.lo ≤ p.lotol ∧ p.lotol ≤ p.hitol ∧ p.hitol ≤ p.hi ∧ 0 ≤ p.max_mark

instance (p : CurveParams) : Decidable (validParams p) := by
  unfold validParams; infer_instance

/-- `conversion(measure_value, params)` — `pyrees.py:6-31`, the body of the
`if`/`elif` chain transcribed branch for branch in its priority order. -/
def conversion (measure_value : ℚ) (params : CurveParams) : ℚ :=
  if measure_value < params.lo ∨ measure_value > params.hi then 0
  else if params.lotol ≤ measure_value ∧ measure_value ≤ params.hitol then
    params.max_mark
  else if params.lo ≤ measure_value ∧ measure_value < params.lotol then
    params.max_mark * (measure_value - params.lo) / (params.lotol - params.lo)
  else if params.hitol < measure_value ∧ measure_value ≤ params.hi then
    params.max_mark * (params.hi - measure_value) / (params.hi - params.hitol)
  else 0

/-- The five-region piecewise-linear function exactly as the spec words it
(§4.1, regions 1-5 in priority order, first match wins). Written from the
spec's text, to be compared with `conversion`. -/
def conversionSpec (value : ℚ) (p : CurveParams) : ℚ :=
  if value < p.lo ∨ value > p.hi then 0
  else if p.lotol ≤ value ∧ value ≤ p.hitol then p.max_mark
  else if p.lo ≤ value ∧ value < p.lotol then
    p.max_mark * (value - p.lo) / (p.lotol - p.lo)
  else if p.hitol < value ∧ value ≤ p.hi then
    p.max_mark * (p.hi - value) / (p.hi - p.hitol)
  else 0

/-- **C1.** For every value and every CurveParams tuple, `conversion`
equals the spec's five-region piecewise-linear function evaluated in the
spec's priority order. -/
theorem conversion_matches_spec (value : ℚ) (p : CurveParams) :
    conversion value p = conversionSpec value p := rfl

/-- Helper: under the CurveParams invariant, `conversion` lands in
`[0, max_mark]`. -/
theorem conversion_range_aux (v : ℚ) (p : CurveParams) (hp : validParams p) :
    0 ≤ conversion v p ∧ conversion v p ≤ p.max_mark := by
  obtain ⟨h1, h2, h3, hm⟩ := hp
  unfold conversion
  split_ifs with ha hb hc hd
  · exact ⟨le_refl 0, hm⟩
  · exact ⟨hm, le_refl _⟩
  · -- rising ramp: lo ≤ v < lotol, hence lo < lotol
    obtain ⟨hlo, hlt⟩ := hc
    have hd1 : 0 < p.lotol - p.lo := by linarith
    constructor
    · exact div_nonneg (mul_nonneg hm (by linarith)) (le_of_lt hd1)
    · rw [div_le_iff₀ hd1]
      nlinarith
  · -- falling ramp: hitol < v ≤ hi, hence hitol < hi
    obtain ⟨hgt, hle⟩ := hd
    have hd2 : 0 < p.hi - p.hitol := by linarith
    constructor
    · exact div_nonneg (mul_nonneg hm (by linarith)) (le_of_lt hd2)
    · rw [div_le_iff₀ hd2]
      nlinarith
  · exact ⟨le_refl 0, hm⟩

/-- **C4.** Under the CurveParams invariant, `conversion` returns a value
in `[0, max_mark]` (a rational, hence finite; the embedding is a total pure
function, so there are no side effects and no exceptions). -/
theorem conversion_in_range (v : ℚ) (p : CurveParams) (hp : validParams p) :
    0 ≤ conversion v p ∧ conversion v p ≤ p.max_mark :=
  conversion_range_aux v p hp

/-- Witness for C4 at a concrete input: the table entry
`p1 = (15, 40, 50, 70, 90)` and value `45`. -/
theorem conversion_in_range_witness :
    0 ≤ conversion 45 ⟨15, 40, 50, 70, 90⟩ ∧
      conversion 45 ⟨15, 40, 50, 70, 90⟩ ≤ (⟨15, 40, 50, 70, 90⟩ : CurveParams).max_mark :=
  conversion_in_range 45 ⟨15, 40, 50, 70, 90⟩ (by constructor <;> norm_num)

/-- **C6.** Under the CurveParams invariant: whenever the rising-ramp
branch executes (its guard holds and every earlier guard fails) its
denominator `lotol - lo` is nonzero and `conversion` returns the rising
ramp; whenever the falling-ramp branch executes its denominator
`hi - hitol` is nonzero and `conversion` returns the falling ramp; and the
final `else` (fallback `0`) is unreachable. -/
theorem conversion_branch_safety (v : ℚ) (p : CurveParams) (hp : validParams p) :
    ((¬(v < p.lo ∨ v > p.hi) ∧ ¬(p.lotol ≤ v ∧ v ≤ p.hitol) ∧
        (p.lo ≤ v ∧ v < p.lotol)) →
      p.lotol - p.lo ≠ 0 ∧
        conversion v p = p.max_mark * (v - p.lo) / (p.lotol - p.lo)) ∧
    ((¬(v < p.lo ∨ v > p.hi) ∧ ¬(p.lotol ≤ v ∧ v ≤ p.hitol) ∧
        ¬(p.lo ≤ v ∧ v < p.lotol) ∧ (p.hitol < v ∧ v ≤ p.hi)) →
      p.hi - p.hitol ≠ 0 ∧
        conversion v p = p.max_mark * (p.hi - v) / (p.hi - p.hitol)) ∧
    ¬(¬(v < p.lo ∨ v > p.hi) ∧ ¬(p.lotol ≤ v ∧ v ≤ p.hitol) ∧
        ¬(p.lo ≤ v ∧ v < p.lotol) ∧ ¬(p.hitol < v ∧ v ≤ p.hi)) := by
  obtain ⟨h1, h2, h3, _⟩ := hp
  refine ⟨?_, ?_, ?_⟩
  · rintro ⟨ha, hb, hc⟩
    have hd1 : p.lo < p.lotol := lt_of_le_of_lt hc.1 hc.2
    refine ⟨by intro h; linarith [sub_eq_zero.mp h], ?_⟩
    unfold conversion
    rw [if_neg ha, if_neg hb, if_pos hc]
  · rintro ⟨ha, hb, hc, hd⟩
    have hd2 : p.hitol < p.hi := lt_of_lt_of_le hd.1 hd.2
    refine ⟨by intro h; linarith [sub_eq_zero.mp h], ?_⟩
    unfold conversion
    rw [if_neg ha, if_neg hb, if_neg hc, if_pos hd]
  · rintro ⟨ha, hb, hc, hd⟩
    push_neg at ha hb hc hd
    exact absurd (hd (hb (hc ha.1))) (not_lt.mpr ha.2)

/-- Witness for C6 at the concrete valid tuple `(15, 40, 50, 70, 90)` and
value `45`. -/
theorem conversion_branch_safety_witness :
    ((¬((45 : ℚ) < 40 ∨ (45 : ℚ) > 90) ∧ ¬((50 : ℚ) ≤ 45 ∧ (45 : ℚ) ≤ 70) ∧
        ((40 : ℚ) ≤ 45 ∧ (45 : ℚ) < 50)) →
      (50 : ℚ) - 40 ≠ 0 ∧
        conversion 45 ⟨15, 40, 50, 70, 90⟩ = 15 * ((45 : ℚ) - 40) / (50 - 40)) ∧
    ((¬((45 : ℚ) < 40 ∨ (45 : ℚ) > 90) ∧ ¬((50 : ℚ) ≤ 45 ∧ (45 : ℚ) ≤ 70) ∧
        ¬((40 : ℚ) ≤ 45 ∧ (45 : ℚ) < 50) ∧ ((70 : ℚ) < 45 ∧ (45 : ℚ) ≤ 90)) →
      (90 : ℚ) - 70 ≠ 0 ∧
        conversion 45 ⟨15, 40, 50, 70, 90⟩ = 15 * ((90 : ℚ) - 45) / (90 - 70)) ∧
    ¬(¬((45 : ℚ) < 40 ∨ (45 : ℚ) > 90) ∧ ¬((50 : ℚ) ≤ 45 ∧ (45 : ℚ) ≤ 70) ∧
        ¬((40 : ℚ) ≤ 45 ∧ (45 : ℚ) < 50) ∧ ¬((70 : ℚ) < 45 ∧ (45 : ℚ) ≤ 90)) :=
  conversion_branch_safety 45 ⟨15, 40, 50, 70, 90⟩ (by constructor <;> norm_num)

/-- ε-δ continuity at a point for rational-valued functions of a rational
variable (the standard metric notion, with rational ε and δ; ℚ is dense, so
this coincides with topological continuity and rules out exactly the jump
discontinuities the spec speaks of). -/
def QContinuousAt (f : ℚ → ℚ) (x : ℚ) : Prop :=
  ∀ ε : ℚ, 0 < ε → ∃ δ : ℚ, 0 < δ ∧ ∀ y : ℚ, |y - x| < δ → |f y - f x| < ε

/-- The trapezoid curve written as one globally-defined expression:
`max 0 (min max_mark (min risingRamp fallingRamp))`. Used only as an
analysis device for the continuity claims. -/
def trapezoidForm (p : CurveParams) (v : ℚ) : ℚ :=
  max 0 (min p.max_mark
    (min (p.max_mark * (v - p.lo) / (p.lotol - p.lo))
         (p.max_mark * (p.hi - v) / (p.hi - p.hitol))))

/-- When both ramps are non-degenerate (`lo < lotol` and `hitol < hi`),
`conversion` agrees everywhere with the closed trapezoid form. -/
theorem conversion_eq_trapezoidForm (p : CurveParams) (h1 : p.lo < p.lotol)
    (h2 : p.lotol ≤ p.hitol) (h3 : p.hitol < p.hi) (hm : 0 ≤ p.max_mark)
    (v : ℚ) : conversion v p = trapezoidForm p v := by
  have hd1 : 0 < p.lotol - p.lo := by linarith
  have hd2 : 0 < p.hi - p.hitol := by linarith
  unfold conversion trapezoidForm
  split_ifs with ha hb hc hd
  · rcases ha with h | h
    · have hr1 : p.max_mark * (v - p.lo) / (p.lotol - p.lo) ≤ 0 :=
        div_nonpos_iff.mpr (Or.inr ⟨by nlinarith, by linarith⟩)
      exact (max_eq_left ((min_le_right _ _).trans
        ((min_le_left _ _).trans hr1))).symm
    · have hr2 : p.max_mark * (p.hi - v) / (p.hi - p.hitol) ≤ 0 :=
        div_nonpos_iff.mpr (Or.inr ⟨by nlinarith, by linarith⟩)
      exact (max_eq_left ((min_le_right _ _).trans
        ((min_le_right _ _).trans hr2))).symm
  · have hr1 : p.max_mark ≤ p.max_mark * (v - p.lo) / (p.lotol - p.lo) := by
      rw [le_div_iff₀ hd1]; nlinarith [hb.1]
    have hr2 : p.max_mark ≤ p.max_mark * (p.hi - v) / (p.hi - p.hitol) := by
      rw [le_div_iff₀ hd2]; nlinarith [hb.2]
    rw [min_eq_left (le_min hr1 hr2), max_eq_right hm]
  · push_neg at ha
    have h0 : 0 ≤ p.max_mark * (v - p.lo) / (p.lotol - p.lo) :=
      div_nonneg (by nlinarith [hc.1]) hd1.le
    have hmm : p.max_mark * (v - p.lo) / (p.lotol - p.lo) ≤ p.max_mark := by
      rw [div_le_iff₀ hd1]; nlinarith [hc.2]
    have hr2 : p.max_mark ≤ p.max_mark * (p.hi - v) / (p.hi - p.hitol) := by
      rw [le_div_iff₀ hd2]; nlinarith [hc.2]
    rw [min_eq_left (hmm.trans hr2), min_eq_right hmm, max_eq_right h0]
  · push_neg at ha
    have h0 : 0 ≤ p.max_mark * (p.hi - v) / (p.hi - p.hitol) :=
      div_nonneg (by nlinarith [hd.2]) hd2.le
    have hmm : p.max_mark * (p.hi - v) / (p.hi - p.hitol) ≤ p.max_mark := by
      rw [div_le_iff₀ hd2]; nlinarith [hd.1]
    have hr1 : p.max_mark ≤ p.max_mark * (v - p.lo) / (p.lotol - p.lo) := by
      rw [le_div_iff₀ hd1]; nlinarith [hd.1]
    rw [min_eq_right (hmm.trans hr1), min_eq_right hmm, max_eq_right h0]
  · push_neg at ha hb hc hd
    exact absurd (hd (hb (hc ha.1))) (not_lt.mpr ha.2)

/-- The closed trapezoid form is Lipschitz with constant
`|max_mark/(lotol-lo)| + |max_mark/(hi-hitol)|`. -/
theorem trapezoidForm_lipschitz (p : CurveParams)
    (hne1 : p.lotol - p.lo ≠ 0) (hne2 : p.hi - p.hitol ≠ 0) (x y : ℚ) :
    |trapezoidForm p y - trapezoidForm p x| ≤
      (|p.max_mark / (p.lotol - p.lo)| + |p.max_mark / (p.hi - p.hitol)|) *
        |y - x| := by
  have e1 : p.max_mark * (y - p.lo) / (p.lotol - p.lo) -
      p.max_mark * (x - p.lo) / (p.lotol - p.lo) =
      (p.max_mark / (p.lotol - p.lo)) * (y - x) := by
    field_simp
    ring
  have e2 : p.max_mark * (p.hi - y) / (p.hi - p.hitol) -
      p.max_mark * (p.hi - x) / (p.hi - p.hitol) =
      (p.max_mark / (p.hi - p.hitol)) * (x - y) := by
    field_simp
    ring
  unfold trapezoidForm
  calc |max 0 (min p.max_mark
          (min (p.max_mark * (y - p.lo) / (p.lotol - p.lo))
               (p.max_mark * (p.hi - y) / (p.hi - p.hitol)))) -
        max 0 (min p.max_mark
          (min (p.max_mark * (x - p.lo) / (p.lotol - p.lo))
               (p.max_mark * (p.hi - x) / (p.hi - p.hitol))))|
      ≤ max |(0 : ℚ) - 0|
          |min p.max_mark
             (min (p.max_mark * (y - p.lo) / (p.lotol - p.lo))
                  (p.max_mark * (p.hi - y) / (p.hi - p.hitol))) -
           min p.max_mark
             (min (p.max_mark * (x - p.lo) / (p.lotol - p.lo))
                  (p.max_mark * (p.hi - x) / (p.hi - p.hitol)))| :=
        abs_max_sub_max_le_max _ _ _ _
    _ = |min p.max_mark
           (min (p.max_mark * (y - p.lo) / (p.lotol - p.lo))
                (p.max_mark * (p.hi - y) / (p.hi - p.hitol))) -
         min p.max_mark
           (min (p.max_mark * (x - p.lo) / (p.lotol - p.lo))
                (p.max_mark * (p.hi - x) / (p.hi - p.hitol)))| := by
        rw [sub_zero, abs_zero]
        exact max_eq_right (abs_nonneg _)
    _ ≤ max |p.max_mark - p.max_mark|
          |min (p.max_mark * (y - p.lo) / (p.lotol - p.lo))
               (p.max_mark * (p.hi - y) / (p.hi - p.hitol)) -
           min (p.max_mark * (x - p.lo) / (p.lotol - p.lo))
               (p.max_mark * (p.hi - x) / (p.hi - p.hitol))| :=
        abs_min_sub_min_le_max _ _ _ _
    _ = |min (p.max_mark * (y - p.lo) / (p.lotol - p.lo))
             (p.max_mark * (p.hi - y) / (p.hi - p.hitol)) -
         min (p.max_mark * (x - p.lo) / (p.lotol - p.lo))
             (p.max_mark * (p.hi - x) / (p.hi - p.hitol))| := by
        rw [sub_self, abs_zero]
        exact max_eq_right (abs_nonneg _)
    _ ≤ max |p.max_mark * (y - p.lo) / (p.lotol - p.lo) -
             p.max_mark * (x - p.lo) / (p.lotol - p.lo)|
            |p.max_mark * (p.hi - y) / (p.hi - p.hitol) -
             p.max_mark * (p.hi - x) / (p.hi - p.hitol)| :=
        abs_min_sub_min_le_max _ _ _ _
    _ ≤ |p.max_mark / (p.lotol - p.lo)| * |y - x| +
        |p.max_mark / (p.hi - p.hitol)| * |y - x| := by
        apply max_le
        · rw [e1, abs_mul]
          exact le_add_of_nonneg_right (by positivity)
        · rw [e2, abs_mul, abs_sub_comm x y]
          exact le_add_of_nonneg_left (by positivity)
    _ = (|p.max_mark / (p.lotol - p.lo)| + |p.max_mark / (p.hi - p.hitol)|) *
        |y - x| := by ring

/-- The closed trapezoid form is continuous everywhere. -/
theorem trapezoidForm_qContinuousAt (p : CurveParams)
    (hne1 : p.lotol - p.lo ≠ 0) (hne2 : p.hi - p.hitol ≠ 0) (x : ℚ) :
    QContinuousAt (trapezoidForm p) x := by
  intro ε hε
  have hK0 : 0 ≤ |p.max_mark / (p.lotol - p.lo)| +
      |p.max_mark / (p.hi - p.hitol)| := by positivity
  refine ⟨ε / (|p.max_mark / (p.lotol - p.lo)| +
      |p.max_mark / (p.hi - p.hitol)| + 1), by positivity, ?_⟩
  intro y hy
  have h := trapezoidForm_lipschitz p hne1 hne2 x y
  have hmul : (|p.max_mark / (p.lotol - p.lo)| +
        |p.max_mark / (p.hi - p.hitol)|) * |y - x| ≤
      (|p.max_mark / (p.lotol - p.lo)| + |p.max_mark / (p.hi - p.hitol)|) *
        (ε / (|p.max_mark / (p.lotol - p.lo)| +
          |p.max_mark / (p.hi - p.hitol)| + 1)) :=
    mul_le_mul_of_nonneg_left hy.le hK0
  have hfin : (|p.max_mark / (p.lotol - p.lo)| +
        |p.max_mark / (p.hi - p.hitol)|) *
      (ε / (|p.max_mark / (p.lotol - p.lo)| +
        |p.max_mark / (p.hi - p.hitol)| + 1)) < ε := by
    have hrw : (|p.max_mark / (p.lotol - p.lo)| +
          |p.max_mark / (p.hi - p.hitol)|) *
        (ε / (|p.max_mark / (p.lotol - p.lo)| +
          |p.max_mark / (p.hi - p.hitol)| + 1)) =
        (|p.max_mark / (p.lotol - p.lo)| + |p.max_mark / (p.hi - p.hitol)|) *
          ε / (|p.max_mark / (p.lotol - p.lo)| +
            |p.max_mark / (p.hi - p.hitol)| + 1) := by ring
    rw [hrw, div_lt_iff₀ (by positivity)]
    nlinarith
  exact lt_of_le_of_lt (h.trans hmul) hfin

/-- **C5 counterexample.** The degenerate tuple `(1, 0, 0, 1, 2)` satisfies
the CurveParams invariant `lo ≤ lotol ≤ hitol ≤ hi`, `max_mark ≥ 0`, yet
`conversion` is *not* continuous at its breakpoint `lo = 0`: the value
jumps from 0 (just left of `lo`) to `max_mark = 1` (at `lo`). -/
theorem conversion_discontinuous_at_degenerate_lo :
    validParams ⟨1, 0, 0, 1, 2⟩ ∧
      ¬ QContinuousAt (fun v => conversion v ⟨1, 0, 0, 1, 2⟩) 0 := by
  refine ⟨by decide, ?_⟩
  intro h
  obtain ⟨δ, hδ, hall⟩ := h (1 / 2) (by norm_num)
  have h1 := hall (-(δ / 2))
    (by rw [sub_zero, abs_neg, abs_of_pos (by linarith : (0 : ℚ) < δ / 2)]
        linarith)
  have hc1 : -(δ / 2) < (0 : ℚ) := by linarith
  have e0 : conversion (-(δ / 2)) ⟨1, 0, 0, 1, 2⟩ = 0 := by
    unfold conversion
    rw [if_pos (Or.inl hc1)]
  have e1 : conversion 0 ⟨1, 0, 0, 1, 2⟩ = 1 := by
    unfold conversion
    norm_num
  simp only [e0, e1] at h1
  norm_num at h1

/-- **C5 amended.** For every CurveParams satisfying the invariant with the
two ramps non-degenerate (`lo < lotol` and `hitol < hi` — all eight tuples
of the constant parameter table are of this shape), `value ↦
conversion value params` is continuous at each of the four breakpoints
`lo`, `lotol`, `hitol`, `hi`. -/
theorem conversion_continuous_at_breakpoints (p : CurveParams)
    (h1 : p.lo < p.lotol) (h2 : p.lotol ≤ p.hitol) (h3 : p.hitol < p.hi)
    (hm : 0 ≤ p.max_mark) :
    QContinuousAt (fun v => conversion v p) p.lo ∧
      QContinuousAt (fun v => conversion v p) p.lotol ∧
      QContinuousAt (fun v => conversion v p) p.hitol ∧
      QContinuousAt (fun v => conversion v p) p.hi := by
  have hfun : (fun v => conversion v p) = trapezoidForm p :=
    funext (fun v => conversion_eq_trapezoidForm p h1 h2 h3 hm v)
  rw [hfun]
  have hne1 : p.lotol - p.lo ≠ 0 := by intro h; nlinarith [sub_eq_zero.mp h]
  have hne2 : p.hi - p.hitol ≠ 0 := by intro h; nlinarith [sub_eq_zero.mp h]
  exact ⟨trapezoidForm_qContinuousAt p hne1 hne2 _,
    trapezoidForm_qContinuousAt p hne1 hne2 _,
    trapezoidForm_qContinuousAt p hne1 hne2 _,
    trapezoidForm_qContinuousAt p hne1 hne2 _⟩

/-- Witness for the amended C5 at the concrete table entry
`p1 = (15, 40, 50, 70, 90)`. -/
theorem conversion_continuous_at_breakpoints_witness :
    QContinuousAt (fun v => conversion v ⟨15, 40, 50, 70, 90⟩) 40 ∧
      QContinuousAt (fun v => conversion v ⟨15, 40, 50, 70, 90⟩) 50 ∧
      QContinuousAt (fun v => conversion v ⟨15, 40, 50, 70, 90⟩) 70 ∧
      QContinuousAt (fun v => conversion v ⟨15, 40, 50, 70, 90⟩) 90 :=
  conversion_continuous_at_breakpoints ⟨15, 40, 50, 70, 90⟩
    (by norm_num) (by norm_num) (by norm_num) (by norm_num)

/-- Characters on which Python `str.splitlines` splits (`\n`, `\r` — with
`\r\n` as one boundary, handled in `splitlinesAux` — plus the other
line-boundary characters of the Python reference). -/
def isLineBoundary (c : Char) : Bool :=
  c == '\n' || c == '\r' || c == '\x0b' || c == '\x0c' ||
  c == '\x1c' || c == '\x1d' || c == '\x1e' || c == '\x85' ||
  c == ' ' || c == ' '

/-- Worker for `splitlines`: `acc` holds the current line reversed. A
trailing line boundary does not create a phantom empty final line. -/
def splitlinesAux : List Char → List Char → List (List Char)
  | acc, [] => if acc.isEmpty then [] else [acc.reverse]
  | acc, '\r' :: '\n' :: rest => acc.reverse :: splitlinesAux [] rest
  | acc, c :: rest =>
    if isLineBoundary c then acc.reverse :: splitlinesAux [] rest
    else splitlinesAux (c :: acc) rest

/-- Python `code.splitlines()` — `pyrees.py:60`. -/
def splitlines (code : List Char) : List (List Char) :=
  splitlinesAux [] code

/-- Characters stripped by Python `str.strip()` (ASCII whitespace plus the
common Unicode whitespace code points; within one line of `splitlines`
output only space, tab and `\xa0`-style spaces can actually occur). -/
def isPySpace (c : Char) : Bool :=
  c == ' ' || c == '\t' || c == '\n' || c == '\r' || c == '\x0b' ||
  c == '\x0c' || c == '\x1c' || c == '\x1d' || c == '\x1e' || c == '\x1f' ||
  c == '\x85' || c == '\xa0' || c == ' ' || c == ' '

/-- Python `line.strip()`: drop leading and trailing whitespace. -/
def strip (l : List Char) : List Char :=
  ((l.dropWhile isPySpace).reverse.dropWhile isPySpace).reverse

/-- `lines = code.splitlines()` — `pyrees.py:60`. -/
def lines_of (code : String) : List (List Char) :=
  splitlines code.data

/-- `non_blank_lines = [line for line in lines if line.strip() != ""]` —
`pyrees.py:62`. -/
def non_blank_lines (code : String) : List (List Char) :=
  (lines_of code).filter (fun l => !(strip l).isEmpty)

/-- Measure 1, `pyrees.py:66-69`: mean stripped length over non-blank
lines, `0` if there are none. -/
def avg_line_length (code : String) : ℚ :=
  if 0 < (non_blank_lines code).length then
    (((non_blank_lines code).map (fun l => (strip l).length)).sum : ℚ) /
      (non_blank_lines code).length
  else 0

/-- `comment_lines`: the set of starting line numbers of COMMENT tokens —
`pyrees.py:72-78` (a Python `set`, so each line counts once). -/
def comment_lines (toks : List Tok) : Finset ℕ :=
  ((toks.filter (fun t => t.kind == TokKind.comment)).map Tok.line).toFinset

/-- Measure 2, `pyrees.py:83`: `len(comment_lines)/total_lines*100`, `0`
if there are no lines. -/
def comment_percentage (code : String) (toks : List Tok) : ℚ :=
  if 0 < (lines_of code).length then
    ((comment_lines toks).card : ℚ) / (lines_of code).length * 100
  else 0

/-- `line.startswith(" ") or line.startswith("\t")` — `pyrees.py:86`. -/
def starts_indented (l : List Char) : Bool :=
  match l with
  | [] => false
  | c :: _ => c == ' ' || c == '\t'

/-- `indented_lines` — `pyrees.py:86`. -/
def indented_lines (code : String) : List (List Char) :=
  (non_blank_lines code).filter starts_indented

/-- Measure 3, `pyrees.py:87`: share of non-blank lines that start with a
space or tab, `0` if there are no non-blank lines. -/
def indent_percentage (code : String) : ℚ :=
  if 0 < (non_blank_lines code).length then
    ((indented_lines code).length : ℚ) / (non_blank_lines code).length * 100
  else 0

/-- `blank_lines = [line for line in lines if line.strip() == ""]` —
`pyrees.py:90`. -/
def blank_lines (code : String) : List (List Char) :=
  (lines_of code).filter (fun l => (strip l).isEmpty)

/-- Measure 4, `pyrees.py:91`: share of blank lines among all lines, `0`
if there are no lines. -/
def blank_percentage (code : String) : ℚ :=
  if 0 < (lines_of code).length then
    ((blank_lines code).length : ℚ) / (lines_of code).length * 100
  else 0

/-- `total_embedded_spaces` — `pyrees.py:95`. -/
def total_embedded_spaces (code : String) : ℕ :=
  ((non_blank_lines code).map (fun l => (strip l).count ' ')).sum

/-- `total_chars` — `pyrees.py:96`. -/
def total_chars (code : String) : ℕ :=
  ((non_blank_lines code).map (fun l => (strip l).length)).sum

/-- Measure 5, `pyrees.py:97`: embedded-space share of stripped text, `0`
if the stripped text is empty. -/
def embedded_space_percentage (code : String) : ℚ :=
  if 0 < total_chars code then
    (total_embedded_spaces code : ℚ) / (total_chars code) * 100
  else 0

/-- `num_funcs` — `pyrees.py:101-106`: number of `FunctionDef` /
`AsyncFunctionDef` nodes anywhere in the tree, `0` when parsing failed. -/
def num_funcs (astRes : Option PyTree) : ℕ :=
  match astRes with
  | some t => countFuncDefs t
  | none => 0

/-- Measure 6, `pyrees.py:107-109`: non-blank lines per module, where the
modules are the functions plus the top-level module. -/
def module_length (code : String) (astRes : Option PyTree) : ℚ :=
  if 0 < num_funcs astRes + 1 then
    ((non_blank_lines code).length : ℚ) / (num_funcs astRes + 1)
  else (non_blank_lines code).length

/-- `keyword.kwlist` of Python 3: the fixed reserved-word list. -/
def kwlist : List String :=
  ["False", "None", "True", "and", "as", "assert", "async", "await",
   "break", "class", "continue", "def", "del", "elif", "else", "except",
   "finally", "for", "from", "global", "if",
   "import", "in", "is", "lambda", "nonlocal", "not", "or", "pass",
   "raise", "return", "try", "while", "yield"]

/-- `used_reserved_words` — `pyrees.py:112-116`: the set of NAME-token
strings that are keywords. -/
def used_reserved_words (toks : List Tok) : Finset String :=
  ((toks.filter
      (fun t => t.kind == TokKind.name && kwlist.contains t.str)).map
    Tok.str).toFinset

/-- Measure 7, `pyrees.py:117`: number of distinct reserved words used. -/
def reserved_words_count (toks : List Tok) : ℕ :=
  (used_reserved_words toks).card

/-- `identifiers` — `pyrees.py:120`: strings of NAME tokens that are not
keywords (a list, duplicates kept). -/
def identifiers (toks : List Tok) : List String :=
  (toks.filter
    (fun t => t.kind == TokKind.name && !kwlist.contains t.str)).map Tok.str

/-- Measure 8, `pyrees.py:121`: mean length of programmer-defined names,
`0` if there are none. -/
def avg_identifier_length (toks : List Tok) : ℚ :=
  if !(identifiers toks).isEmpty then
    (((identifiers toks).map String.length).sum : ℚ) /
      (identifiers toks).length
  else 0

/-- `p1` — `pyrees.py:128`. -/
def p1 : CurveParams := ⟨15, 40, 50, 70, 90⟩

/-- `p2` — `pyrees.py:130`. -/
def p2 : CurveParams := ⟨10, 5, 10, 20, 30⟩

/-- `p3` — `pyrees.py:132`. -/
def p3 : CurveParams := ⟨12, 30, 40, 60, 70⟩

/-- `p4` — `pyrees.py:134`. -/
def p4 : CurveParams := ⟨5, 2, 5, 10, 15⟩

/-- `p5` — `pyrees.py:136`. -/
def p5 : CurveParams := ⟨8, 5, 7, 12, 15⟩

/-- `p6` — `pyrees.py:138`. -/
def p6 : CurveParams := ⟨20, 5, 10, 20, 30⟩

/-- `p7` — `pyrees.py:140`. -/
def p7 : CurveParams := ⟨10, 5, 8, 15, 20⟩

/-- `p8` — `pyrees.py:142`. -/
def p8 : CurveParams := ⟨20, 5, 7, 15, 20⟩

/-- A mapping from the 8 fixed measure names to rationals: the shape of
both the `raw_measures` and the `marks` dictionaries of the result
(`pyrees.py:159-178`); having all 8 fields is forced by construction, as
the Python dict literal always carries all 8 keys. -/
structure MeasureVec where
  avg_line_length : ℚ
  comment_percentage : ℚ
  indent_percentage : ℚ
  blank_percentage : ℚ
  embedded_space_percentage : ℚ
  module_length : ℚ
  reserved_words_count : ℚ
  avg_identifier_length : ℚ
deriving DecidableEq, Repr

/-- The result dictionary of `analyze_style` — `pyrees.py:158-180`. -/
structure StyleReport where
  raw_measures : MeasureVec
  marks : MeasureVec
  total_mark : ℚ
deriving DecidableEq, Repr

/-- `analyze_style(code)` — `pyrees.py:33-181`. `tokRes` is the outcome of
`tokenize.tokenize` (`none` = the `except Exception` path, which leaves
`tokens = []` and `comment_lines` empty) and `astRes` the outcome of
`ast.parse` (`none` = `num_funcs = 0`). -/
def analyze_style (code : String) (tokRes : Option (List Tok))
    (astRes : Option PyTree) : StyleReport :=
  let tokens := tokRes.getD []
  let a1 := avg_line_length code
  let a2 := comment_percentage code tokens
  let a3 := indent_percentage code
  let a4 := blank_percentage code
  let a5 := embedded_space_percentage code
  let a6 := module_length code astRes
  let a7 : ℚ := reserved_words_count tokens
  let a8 := avg_identifier_length tokens
  let m1 := conversion a1 p1
  let m2 := conversion a2 p2
  let m3 := conversion a3 p3
  let m4 := conversion a4 p4
  let m5 := conversion a5 p5
  let m6 := conversion a6 p6
  let m7 := conversion a7 p7
  let m8 := conversion a8 p8
  let total_mark := m1 + m2 + m3 + m4 + m5 + m6 + m7 + m8
  { raw_measures := ⟨a1, a2, a3, a4, a5, a6, a7, a8⟩,
    marks := ⟨m1, m2, m3, m4, m5, m6, m7, m8⟩,
    total_mark := total_mark }

/-- Helper: a ratio of counts with numerator at most the positive
denominator, times 100, is at most 100. -/
theorem pct_le_100 (a b : ℕ) (hab : a ≤ b) (hb : 0 < b) :
    (a : ℚ) / b * 100 ≤ 100 := by
  have hb' : (0 : ℚ) < b := by exact_mod_cast hb
  rw [div_mul_eq_mul_div, div_le_iff₀ hb']
  have hab' : (a : ℚ) ≤ b := by exact_mod_cast hab
  nlinarith

/-- **C2.** For every input (and either tokenization/parse outcome), the
`total_mark` of `analyze_style` is the exact, unrounded sum of the eight
individually-computed marks; the eight `max_mark` table entries
`15, 10, 12, 5, 8, 20, 10, 20` sum to `100`; and the total lies in
`[0, 100]`. -/
theorem total_mark_exact_sum_bounded (code : String)
    (tokRes : Option (List Tok)) (astRes : Option PyTree) :
    (analyze_style code tokRes astRes).total_mark =
        (analyze_style code tokRes astRes).marks.avg_line_length +
        (analyze_style code tokRes astRes).marks.comment_percentage +
        (analyze_style code tokRes astRes).marks.indent_percentage +
        (analyze_style code tokRes astRes).marks.blank_percentage +
        (analyze_style code tokRes astRes).marks.embedded_space_percentage +
        (analyze_style code tokRes astRes).marks.module_length +
        (analyze_style code tokRes astRes).marks.reserved_words_count +
        (analyze_style code tokRes astRes).marks.avg_identifier_length ∧
      p1.max_mark + p2.max_mark + p3.max_mark + p4.max_mark + p5.max_mark +
        p6.max_mark + p7.max_mark + p8.max_mark = 100 ∧
      0 ≤ (analyze_style code tokRes astRes).total_mark ∧
      (analyze_style code tokRes astRes).total_mark ≤ 100 := by
  have b1 := conversion_range_aux (avg_line_length code) p1 (by decide)
  have b2 := conversion_range_aux
    (comment_percentage code (tokRes.getD [])) p2 (by decide)
  have b3 := conversion_range_aux (indent_percentage code) p3 (by decide)
  have b4 := conversion_range_aux (blank_percentage code) p4 (by decide)
  have b5 := conversion_range_aux (embedded_space_percentage code) p5 (by decide)
  have b6 := conversion_range_aux (module_length code astRes) p6 (by decide)
  have b7 := conversion_range_aux
    ((reserved_words_count (tokRes.getD []) : ℚ)) p7 (by decide)
  have b8 := conversion_range_aux
    (avg_identifier_length (tokRes.getD [])) p8 (by decide)
  have e1 : p1.max_mark = 15 := rfl
  have e2 : p2.max_mark = 10 := rfl
  have e3 : p3.max_mark = 12 := rfl
  have e4 : p4.max_mark = 5 := rfl
  have e5 : p5.max_mark = 8 := rfl
  have e6 : p6.max_mark = 20 := rfl
  have e7 : p7.max_mark = 10 := rfl
  have e8 : p8.max_mark = 20 := rfl
  refine ⟨rfl, by norm_num [p1, p2, p3, p4, p5, p6, p7, p8], ?_, ?_⟩
  · show 0 ≤ conversion (avg_line_length code) p1 +
      conversion (comment_percentage code (tokRes.getD [])) p2 +
      conversion (indent_percentage code) p3 +
      conversion (blank_percentage code) p4 +
      conversion (embedded_space_percentage code) p5 +
      conversion (module_length code astRes) p6 +
      conversion ((reserved_words_count (tokRes.getD []) : ℚ)) p7 +
      conversion (avg_identifier_length (tokRes.getD [])) p8
    linarith [b1.1, b2.1, b3.1, b4.1, b5.1, b6.1, b7.1, b8.1]
  · show conversion (avg_line_length code) p1 +
      conversion (comment_percentage code (tokRes.getD [])) p2 +
      conversion (indent_percentage code) p3 +
      conversion (blank_percentage code) p4 +
      conversion (embedded_space_percentage code) p5 +
      conversion (module_length code astRes) p6 +
      conversion ((reserved_words_count (tokRes.getD []) : ℚ)) p7 +
      conversion (avg_identifier_length (tokRes.getD [])) p8 ≤ 100
    linarith [b1.2, b2.2, b3.2, b4.2, b5.2, b6.2, b7.2, b8.2,
      e1, e2, e3, e4, e5, e6, e7, e8]

/-- Helper: under the tokenizer guarantee that every COMMENT token starts
on an actual line of the source (1-based), the set of distinct comment
lines has at most `total_lines` elements. -/
theorem comment_lines_card_le (code : String) (toks : List Tok)
    (hc : ∀ t ∈ toks, t.kind = TokKind.comment →
      1 ≤ t.line ∧ t.line ≤ (lines_of code).length) :
    (comment_lines toks).card ≤ (lines_of code).length := by
  have hsub : comment_lines toks ⊆ Finset.Icc 1 (lines_of code).length := by
    intro n hn
    unfold comment_lines at hn
    simp only [List.mem_toFinset, List.mem_map, List.mem_filter] at hn
    obtain ⟨t, ⟨ht, hk⟩, rfl⟩ := hn
    exact Finset.mem_Icc.mpr (hc t ht (by simpa using hk))
  calc (comment_lines toks).card
      ≤ (Finset.Icc 1 (lines_of code).length).card := Finset.card_le_card hsub
    _ = (lines_of code).length := by rw [Nat.card_Icc]; omega

/-- **C3.** For every input (and either tokenization/parse outcome,
assuming only the tokenizer's own guarantee that COMMENT tokens carry
1-based line numbers of actual lines), the raw-measure mapping of
`analyze_style` — which carries all 8 entries by construction — has every
entry ≥ 0, and each of the four percentage measures lies in `[0, 100]`. -/
theorem raw_measures_invariant (code : String) (tokRes : Option (List Tok))
    (astRes : Option PyTree)
    (hc : ∀ t ∈ tokRes.getD [], t.kind = TokKind.comment →
      1 ≤ t.line ∧ t.line ≤ (lines_of code).length) :
    (0 ≤ (analyze_style code tokRes astRes).raw_measures.avg_line_length ∧
      0 ≤ (analyze_style code tokRes astRes).raw_measures.comment_percentage ∧
      0 ≤ (analyze_style code tokRes astRes).raw_measures.indent_percentage ∧
      0 ≤ (analyze_style code tokRes astRes).raw_measures.blank_percentage ∧
      0 ≤ (analyze_style code tokRes astRes).raw_measures.embedded_space_percentage ∧
      0 ≤ (analyze_style code tokRes astRes).raw_measures.module_length ∧
      0 ≤ (analyze_style code tokRes astRes).raw_measures.reserved_words_count ∧
      0 ≤ (analyze_style code tokRes astRes).raw_measures.avg_identifier_length) ∧
    ((analyze_style code tokRes astRes).raw_measures.comment_percentage ≤ 100 ∧
      (analyze_style code tokRes astRes).raw_measures.indent_percentage ≤ 100 ∧
      (analyze_style code tokRes astRes).raw_measures.blank_percentage ≤ 100 ∧
      (analyze_style code tokRes astRes).raw_measures.embedded_space_percentage ≤ 100) := by
  constructor
  · refine ⟨?_, ?_, ?_, ?_, ?_, ?_, ?_, ?_⟩
    · show 0 ≤ avg_line_length code
      unfold avg_line_length
      split_ifs <;> positivity
    · show 0 ≤ comment_percentage code (tokRes.getD [])
      unfold comment_percentage
      split_ifs <;> positivity
    · show 0 ≤ indent_percentage code
      unfold indent_percentage
      split_ifs <;> positivity
    · show 0 ≤ blank_percentage code
      unfold blank_percentage
      split_ifs <;> positivity
    · show 0 ≤ embedded_space_percentage code
      unfold embedded_space_percentage
      split_ifs <;> positivity
    · show 0 ≤ module_length code astRes
      unfold module_length
      split_ifs <;> positivity
    · show 0 ≤ ((reserved_words_count (tokRes.getD []) : ℚ))
      positivity
    · show 0 ≤ avg_identifier_length (tokRes.getD [])
      unfold avg_identifier_length
      split_ifs <;> positivity
  · refine ⟨?_, ?_, ?_, ?_⟩
    · show comment_percentage code (tokRes.getD []) ≤ 100
      unfold comment_percentage
      split_ifs with h
      · exact pct_le_100 _ _ (comment_lines_card_le code _ hc) h
      · norm_num
    · show indent_percentage code ≤ 100
      unfold indent_percentage
      split_ifs with h
      · exact pct_le_100 _ _ (List.length_filter_le _ _) h
      · norm_num
    · show blank_percentage code ≤ 100
      unfold blank_percentage
      split_ifs with h
      · exact pct_le_100 _ _ (List.length_filter_le _ _) h
      · norm_num
    · show embedded_space_percentage code ≤ 100
      unfold embedded_space_percentage
      split_ifs with h
      · refine pct_le_100 _ _ ?_ h
        exact List.sum_le_sum (fun l _ => List.count_le_length _ _)
      · norm_num

/-- Witness for C3 at a concrete input (one line, one comment token on
line 1). -/
theorem raw_measures_invariant_witness :
    (0 ≤ (analyze_style "# c" (some [⟨TokKind.comment, "# c", 1⟩]) none).raw_measures.avg_line_length ∧
      0 ≤ (analyze_style "# c" (some [⟨TokKind.comment, "# c", 1⟩]) none).raw_measures.comment_percentage ∧
      0 ≤ (analyze_style "# c" (some [⟨TokKind.comment, "# c", 1⟩]) none).raw_measures.indent_percentage ∧
      0 ≤ (analyze_style "# c" (some [⟨TokKind.comment, "# c", 1⟩]) none).raw_measures.blank_percentage ∧
      0 ≤ (analyze_style "# c" (some [⟨TokKind.comment, "# c", 1⟩]) none).raw_measures.embedded_space_percentage ∧
      0 ≤ (analyze_style "# c" (some [⟨TokKind.comment, "# c", 1⟩]) none).raw_measures.module_length ∧
      0 ≤ (analyze_style "# c" (some [⟨TokKind.comment, "# c", 1⟩]) none).raw_measures.reserved_words_count ∧
      0 ≤ (analyze_style "# c" (some [⟨TokKind.comment, "# c", 1⟩]) none).raw_measures.avg_identifier_length) ∧
    ((analyze_style "# c" (some [⟨TokKind.comment, "# c", 1⟩]) none).raw_measures.comment_percentage ≤ 100 ∧
      (analyze_style "# c" (some [⟨TokKind.comment, "# c", 1⟩]) none).raw_measures.indent_percentage ≤ 100 ∧
      (analyze_style "# c" (some [⟨TokKind.comment, "# c", 1⟩]) none).raw_measures.blank_percentage ≤ 100 ∧
      (analyze_style "# c" (some [⟨TokKind.comment, "# c", 1⟩]) none).raw_measures.embedded_space_percentage ≤ 100) :=
  raw_measures_invariant "# c" (some [⟨TokKind.comment, "# c", 1⟩]) none
    (by decide)

/-- Helper: the empty token stream yields comment percentage 0. -/
theorem comment_percentage_no_tokens (code : String) :
    comment_percentage code [] = 0 := by
  unfold comment_percentage comment_lines
  split_ifs <;> simp

/-- **C7.** On tokenization failure, `analyze_style` behaves exactly as if
the token stream were empty: the whole report coincides with the
empty-stream report; measures 2, 7, 8 take their no-token defaults
`(0, 0, 0)`; and the line-based measures 1, 3, 4, 5 are identical to their
values under any successful tokenization — the error never propagates. -/
theorem tokenization_failure_policy (code : String) (astRes : Option PyTree)
    (toks : List Tok) :
    analyze_style code none astRes = analyze_style code (some []) astRes ∧
    (analyze_style code none astRes).raw_measures.comment_percentage = 0 ∧
    (analyze_style code none astRes).raw_measures.reserved_words_count = 0 ∧
    (analyze_style code none astRes).raw_measures.avg_identifier_length = 0 ∧
    (analyze_style code none astRes).raw_measures.avg_line_length =
      (analyze_style code (some toks) astRes).raw_measures.avg_line_length ∧
    (analyze_style code none astRes).raw_measures.indent_percentage =
      (analyze_style code (some toks) astRes).raw_measures.indent_percentage ∧
    (analyze_style code none astRes).raw_measures.blank_percentage =
      (analyze_style code (some toks) astRes).raw_measures.blank_percentage ∧
    (analyze_style code none astRes).raw_measures.embedded_space_percentage =
      (analyze_style code (some toks) astRes).raw_measures.embedded_space_percentage := by
  refine ⟨rfl, ?_, ?_, ?_, rfl, rfl, rfl, rfl⟩
  · show comment_percentage code [] = 0
    exact comment_percentage_no_tokens code
  · show ((reserved_words_count [] : ℚ)) = 0
    norm_num [reserved_words_count, used_reserved_words]
  · show avg_identifier_length [] = 0
    rfl

/-- **C8.** `analyze_style` on the empty string: all eight raw measures are
`0` and the total mark is `0` (under the tokenizer's actual behaviour on
`""`, whose token stream contains no NAME tokens). -/
theorem analyze_style_empty_string (tokRes : Option (List Tok))
    (astRes : Option PyTree)
    (h : ∀ toks, tokRes = some toks → ∀ t ∈ toks, t.kind ≠ TokKind.name) :
    (analyze_style "" tokRes astRes).raw_measures =
        ⟨0, 0, 0, 0, 0, 0, 0, 0⟩ ∧
      (analyze_style "" tokRes astRes).total_mark = 0 := by
  have ht : ∀ t ∈ tokRes.getD [], t.kind ≠ TokKind.name := by
    match tokRes with
    | none => intro t ht; cases ht
    | some toks => exact h toks rfl
  have ht7 : (tokRes.getD []).filter
      (fun t => t.kind == TokKind.name && kwlist.contains t.str) = [] := by
    apply List.filter_eq_nil_iff.mpr
    intro t htm
    simp only [Bool.and_eq_true, beq_iff_eq, not_and]
    intro hk
    exact absurd hk (ht t htm)
  have ht8 : (tokRes.getD []).filter
      (fun t => t.kind == TokKind.name && !kwlist.contains t.str) = [] := by
    apply List.filter_eq_nil_iff.mpr
    intro t htm
    simp only [Bool.and_eq_true, beq_iff_eq, not_and]
    intro hk
    exact absurd hk (ht t htm)
  have ha7 : ((reserved_words_count (tokRes.getD []) : ℚ)) = 0 := by
    unfold reserved_words_count used_reserved_words
    rw [ht7]
    simp
  have ha8 : avg_identifier_length (tokRes.getD []) = 0 := by
    unfold avg_identifier_length identifiers
    rw [ht8]
    simp
  have ha2 : comment_percentage "" (tokRes.getD []) = 0 := rfl
  have hnb : non_blank_lines "" = [] := rfl
  have ha6 : module_length "" astRes = 0 := by
    unfold module_length
    rw [hnb, if_pos (Nat.succ_pos _)]
    norm_num
  have ha1 : avg_line_length "" = 0 := rfl
  have ha3 : indent_percentage "" = 0 := rfl
  have ha4 : blank_percentage "" = 0 := rfl
  have ha5 : embedded_space_percentage "" = 0 := rfl
  constructor
  · show (⟨avg_line_length "", comment_percentage "" (tokRes.getD []),
        indent_percentage "", blank_percentage "",
        embedded_space_percentage "", module_length "" astRes,
        ((reserved_words_count (tokRes.getD []) : ℚ)),
        avg_identifier_length (tokRes.getD [])⟩ : MeasureVec) =
      ⟨0, 0, 0, 0, 0, 0, 0, 0⟩
    rw [ha1, ha2, ha3, ha4, ha5, ha6, ha7, ha8]
  · show conversion (avg_line_length "") p1 +
      conversion (comment_percentage "" (tokRes.getD [])) p2 +
      conversion (indent_percentage "") p3 +
      conversion (blank_percentage "") p4 +
      conversion (embedded_space_percentage "") p5 +
      conversion (module_length "" astRes) p6 +
      conversion ((reserved_words_count (tokRes.getD []) : ℚ)) p7 +
      conversion (avg_identifier_length (tokRes.getD [])) p8 = 0
    rw [ha1, ha2, ha3, ha4, ha5, ha6, ha7, ha8]
    norm_num [conversion, p1, p2, p3, p4, p5, p6, p7, p8]

/-- Witness for C8 at the concrete tokenizer outcome `some []` (no
tokens at all, hence no NAME tokens) and failed parse. -/
theorem analyze_style_empty_string_witness :
    (analyze_style "" (some []) none).raw_measures =
        ⟨0, 0, 0, 0, 0, 0, 0, 0⟩ ∧
      (analyze_style "" (some []) none).total_mark = 0 :=
  analyze_style_empty_string (some []) none
    (by intro toks heq t ht
        cases heq
        exact absurd ht (List.not_mem_nil t))

/-- **C9.** `analyze_style` is deterministic and idempotent: two calls on
identical inputs return identical StyleReport values (the embedding is a
pure function of the source text and of the tokenizer/parser outcomes,
mirroring that the Python code touches no mutable global state — the
constant keyword list and parameter table are rebuilt identically on every
call). -/
theorem analyze_style_deterministic (c c' : String)
    (t t' : Option (List Tok)) (a a' : Option PyTree)
    (hc : c = c') (ht : t = t') (ha : a = a') :
    analyze_style c t a = analyze_style c' t' a' := by
  subst hc; subst ht; subst ha; rfl

/-- Witness for C9: two calls on the same concrete input coincide. -/
theorem analyze_style_deterministic_witness :
    analyze_style "x = 1" (some []) none = analyze_style "x = 1" (some []) none :=
  analyze_style_deterministic "x = 1" "x = 1" (some []) (some [])
    none none rfl rfl rfl

/-- Helper: filtering `walkChildren` for def-like kinds counts the
function definitions of the children. -/
theorem walkChildren_filter_length (cs : List PyTree) :
    ((walkChildren cs).filter isFuncDefKind).length =
      (cs.map countFuncDefs).sum := by
  induction cs with
  | nil => rfl
  | cons t ts ih =>
    simp [walkChildren, List.filter_append, ih, countFuncDefs]

/-- **C10.** `num_funcs` counts exactly the `def` and `async def` nodes
found anywhere in the parsed syntax tree — one per `FunctionDef` or
`AsyncFunctionDef` node, nested ones included, with every other node kind
(lambdas in particular) contributing nothing — so for any parseable source
whose only function-like constructs are lambdas, `module_length` equals
the non-blank line count divided by `0 + 1`. -/
theorem num_funcs_counts_def_nodes :
    (∀ k cs, countFuncDefs (PyTree.node k cs) =
        (if k = NodeKind.functionDef ∨ k = NodeKind.asyncFunctionDef
          then 1 else 0) + (cs.map countFuncDefs).sum) ∧
    (∀ (code : String) (tokRes : Option (List Tok)) (tree : PyTree),
      (∀ k ∈ walk tree,
          k ≠ NodeKind.functionDef ∧ k ≠ NodeKind.asyncFunctionDef) →
        num_funcs (some tree) = 0 ∧
          (analyze_style code tokRes (some tree)).raw_measures.module_length =
            ((non_blank_lines code).length : ℚ) / ((0 : ℚ) + 1)) := by
  constructor
  · intro k cs
    cases k <;>
      simp [countFuncDefs, walk, List.filter_cons, isFuncDefKind,
        walkChildren_filter_length, Nat.add_comm]
  · intro code tokRes tree h
    have h0 : countFuncDefs tree = 0 := by
      unfold countFuncDefs
      rw [List.length_eq_zero]
      apply List.filter_eq_nil_iff.mpr
      intro k hk
      simpa [isFuncDefKind] using h k hk
    have hn : num_funcs (some tree) = 0 := h0
    refine ⟨hn, ?_⟩
    show module_length code (some tree) =
      ((non_blank_lines code).length : ℚ) / ((0 : ℚ) + 1)
    unfold module_length
    rw [hn, if_pos (Nat.succ_pos _)]
    norm_num

/-- Witness for C10 at a concrete lambda-only tree and source. -/
theorem num_funcs_counts_def_nodes_witness :
    num_funcs (some (PyTree.node NodeKind.otherNode
        [PyTree.node NodeKind.lambdaExpr []])) = 0 ∧
      (analyze_style "x = 1" none (some (PyTree.node NodeKind.otherNode
          [PyTree.node NodeKind.lambdaExpr []]))).raw_measures.module_length =
        ((non_blank_lines "x = 1").length : ℚ) / ((0 : ℚ) + 1) :=
  num_funcs_counts_def_nodes.2 "x = 1" none
    (PyTree.node NodeKind.otherNode [PyTree.node NodeKind.lambdaExpr []])
    (by decide)
